import Mathlib

/-!
Verification of the churn-prediction feature-schema pipeline.

The definitions below are a shallow embedding of the repository's Python
sources: `scripts/train_model.py` (synthetic data generation, encoding,
metric computation, metadata construction), `scripts/test_model.py`
(`align_features`), `scripts/create_inference_data.py`
(`generate_inference_data`) and `src/score.py` (the scoring entry point).
Tabular data is modelled as a list of named columns; cell values are either
strings or exact rationals (the Python code uses float64; arithmetic here is
exact).
-/

namespace Churn

/-- A cell value of a tabular dataset: either a string or a number. -/
inductive Val where
  | str : String → Val
  | num : ℚ → Val
deriving DecidableEq

/-- A pandas-style DataFrame: a row count and an ordered list of named
columns, each column an ordered list of cell values. -/
structure Frame where
  nrows : ℕ
  cols : List (String × List Val)
deriving DecidableEq

/-- First column with a given label, empty when absent (pandas label lookup). -/
def lookupCol (c : String) : List (String × List Val) → List Val
  | [] => []
  | (c', v) :: rest => if c' = c then v else lookupCol c rest

/-- The ordered column names of a frame (`data.columns`). -/
def Frame.names (X : Frame) : List String :=
  X.cols.map Prod.fst

/-- Column access by label (`data[c]`). -/
def Frame.getCol (X : Frame) (c : String) : List Val :=
  lookupCol c X.cols

/-- Label-based projection (`data[S]`): the columns named by `S`, in the
order of `S`. -/
def Frame.select (X : Frame) (S : List String) : Frame :=
  ⟨X.nrows, S.map (fun c => (c, X.getCol c))⟩

/-- The loop of `align_features` (test_model.py lines 98-100):
`for col in model_features: if col not in data.columns: data[col] = 0`.
In pandas `data[col] = 0` mutates the caller's frame in place, appending a
new constant-0 column at the end; this function is therefore both the first
phase of `align_features` and the post-call state of the caller's frame. -/
def extendCols : Frame → List String → Frame
  | X, [] => X
  | X, c :: rest =>
      extendCols
        (if c ∈ X.names then X
         else ⟨X.nrows, X.cols ++ [(c, List.replicate X.nrows (Val.num 0))]⟩)
        rest

/-- `align_features(data, model_features)` from test_model.py lines 93-102:
insert every missing schema column as constant 0, then reindex to exactly
the schema's columns in schema order (`data = data[model_features]`). -/
def align_features (data : Frame) (model_features : List String) : Frame :=
  (extendCols data model_features).select model_features

/-! ### Customer ids (train_model.py lines 55-57, create_inference_data.py
lines 47-50) -/

/-- Decimal digits of `i`, most significant first. -/
def digitsBE (i : ℕ) : List ℕ :=
  (Nat.digits 10 i).reverse

/-- Zero-pad a digit list on the left to width 5 (Python `f"{i:05d}"`). -/
def padTo5 (l : List ℕ) : List ℕ :=
  List.replicate (5 - l.length) 0 ++ l

/-- `f"CUST-{i:05d}"`. -/
def customerId (i : ℕ) : String :=
  String.mk ('C' :: 'U' :: 'S' :: 'T' :: '-' ::
    (padTo5 (digitsBE i)).map Nat.digitChar)

/-- Training-pool ids: `range(1, n_samples + 1)` (train_model.py line 56). -/
def trainingIds (n : ℕ) : List String :=
  (List.range' 1 n).map customerId

/-- Inference-pool ids: `range(10001, 10001 + n_samples)`
(create_inference_data.py lines 48-49). -/
def inferenceIds (n : ℕ) : List String :=
  (List.range' 10001 n).map customerId

/-- Numeric value of a most-significant-first digit list. -/
def decValBE (l : List ℕ) : ℕ :=
  l.foldl (fun a d => 10 * a + d) 0

/-- Digit character back to its numeric value. -/
def charToDigit (c : Char) : ℕ :=
  c.toNat - 48

/-! ### The data model and the categorical encoder
(train_model.py `prepare_features`, lines 134-151) -/

/-- `contract_type` category (§3; option list of train_model.py line 70). -/
inductive ContractType where
  | monthToMonth | oneYear | twoYear
deriving DecidableEq

/-- The string value stored in the `contract_type` column. -/
def ContractType.name : ContractType → String
  | .monthToMonth => "month-to-month"
  | .oneYear => "one-year"
  | .twoYear => "two-year"

/-- All contract categories in the lexicographic order of their string
values, the order `pd.get_dummies` emits indicator columns in. -/
def contractCategories : List ContractType :=
  [.monthToMonth, .oneYear, .twoYear]

/-- `internet_service` category (train_model.py line 75). -/
inductive InternetService where
  | dsl | fiberOptic | no
deriving DecidableEq

/-- The string value stored in the `internet_service` column. -/
def InternetService.name : InternetService → String
  | .dsl => "dsl"
  | .fiberOptic => "fiber_optic"
  | .no => "no"

/-- All internet categories in lexicographic order of their string values. -/
def internetCategories : List InternetService :=
  [.dsl, .fiberOptic, .no]

/-- `payment_method` category (train_model.py lines 80-85). -/
inductive PaymentMethod where
  | electronicCheck | mailedCheck | bankTransfer | creditCard
deriving DecidableEq

/-- The string value stored in the `payment_method` column. -/
def PaymentMethod.name : PaymentMethod → String
  | .electronicCheck => "electronic_check"
  | .mailedCheck => "mailed_check"
  | .bankTransfer => "bank_transfer"
  | .creditCard => "credit_card"

/-- All payment categories in lexicographic order of their string values. -/
def paymentCategories : List PaymentMethod :=
  [.bankTransfer, .creditCard, .electronicCheck, .mailedCheck]

/-- One labeled customer record (§3 data model; the row shape produced by
`generate_synthetic_data`). -/
structure Record where
  customer_id : String
  tenure_months : ℤ
  monthly_charges : ℚ
  total_charges : ℚ
  contract_type : ContractType
  internet_service : InternetService
  payment_method : PaymentMethod
  num_support_tickets : ℤ
  churned : ℕ
deriving DecidableEq

/-- Contract categories observed in a dataset, in sorted order
(`pd.get_dummies` creates one indicator per observed value, sorted). -/
def observedContract (d : List Record) : List ContractType :=
  contractCategories.filter (fun v => d.any (fun r => r.contract_type = v))

/-- Internet categories observed in a dataset, in sorted order. -/
def observedInternet (d : List Record) : List InternetService :=
  internetCategories.filter (fun v => d.any (fun r => r.internet_service = v))

/-- Payment categories observed in a dataset, in sorted order. -/
def observedPayment (d : List Record) : List PaymentMethod :=
  paymentCategories.filter (fun v => d.any (fun r => r.payment_method = v))

/-- `prepare_features` (train_model.py lines 134-151): drop `customer_id`
and `churned`, then `pd.get_dummies` on the three categorical columns with
`dtype=int`. Non-categorical columns keep their relative order and the
indicator groups are appended, one group per categorical column in the
order listed, each group sorted by category value. Returns the encoded
feature frame and the label vector. -/
def prepare_features (d : List Record) : Frame × List ℕ :=
  (⟨d.length,
    [("tenure_months", d.map (fun r => Val.num r.tenure_months)),
     ("monthly_charges", d.map (fun r => Val.num r.monthly_charges)),
     ("total_charges", d.map (fun r => Val.num r.total_charges)),
     ("num_support_tickets", d.map (fun r => Val.num r.num_support_tickets))]
    ++ (observedContract d).map (fun v =>
        ("contract_type_" ++ v.name,
         d.map (fun r => Val.num (if r.contract_type = v then 1 else 0))))
    ++ (observedInternet d).map (fun v =>
        ("internet_service_" ++ v.name,
         d.map (fun r => Val.num (if r.internet_service = v then 1 else 0))))
    ++ (observedPayment d).map (fun v =>
        ("payment_method_" ++ v.name,
         d.map (fun r => Val.num (if r.payment_method = v then 1 else 0))))⟩,
   d.map Record.churned)

/-- The four passthrough numeric feature columns, in frame order. -/
def numericFeatureNames : List String :=
  ["tenure_months", "monthly_charges", "total_charges",
   "num_support_tickets"]

/-- The full encoded column set: what `prepare_features` produces when every
category value is observed, and hence the persisted feature schema of a
training run that saw every category. -/
def fullFeatureNames : List String :=
  numericFeatureNames
  ++ contractCategories.map (fun v => "contract_type_" ++ v.name)
  ++ internetCategories.map (fun v => "internet_service_" ++ v.name)
  ++ paymentCategories.map (fun v => "payment_method_" ++ v.name)

/-! ### Churn probability model (train_model.py lines 94-114) -/

/-- The per-record churn probability, exactly the `np.where` cascade of
train_model.py lines 95-114: base 0.15; month-to-month sets 0.40;
electronic check takes max with 0.35; fiber optic with more than 5 tickets
adds 0.20 capped at 1.0; tenure above 36 months halves the result. -/
def churnProbability (contract payment internet : String)
    (tickets tenure : ℤ) : ℚ :=
  let p0 : ℚ := 15 / 100
  let p1 := if contract = "month-to-month" then 40 / 100 else p0
  let p2 := if payment = "electronic_check" then max p1 (35 / 100) else p1
  let p3 :=
    if internet = "fiber_optic" ∧ tickets > 5 then min (p2 + 20 / 100) 1
    else p2
  if tenure > 36 then p3 * (1 / 2) else p3

/-- Base churn rate as the spec states it (§4.2 step 4). -/
def baseRate : ℚ := 15 / 100

/-- Spec rule 1: month-to-month contracts set the probability to 0.40. -/
def contractRule (contract : String) (p : ℚ) : ℚ :=
  if contract = "month-to-month" then 40 / 100 else p

/-- Spec rule 2: electronic-check payment raises the probability to at
least 0.35. -/
def paymentRule (payment : String) (p : ℚ) : ℚ :=
  if payment = "electronic_check" then max p (35 / 100) else p

/-- Spec rule 3: fiber-optic service with more than 5 support tickets adds
0.20, capped at 1.0. -/
def fiberRule (internet : String) (tickets : ℤ) (p : ℚ) : ℚ :=
  if internet = "fiber_optic" ∧ tickets > 5 then min (p + 20 / 100) 1 else p

/-- Spec rule 4: tenure greater than 36 months halves the result. -/
def tenureRule (tenure : ℤ) (p : ℚ) : ℚ :=
  if tenure > 36 then p / 2 else p

/-! ### The deterministic random source and the two generators
(train_model.py lines 49-131, create_inference_data.py lines 41-99) -/

/-- The deterministic random source (§4.1): a state type with the draw
operations `generate_synthetic_data` and `generate_inference_data` call.
Each draw returns the drawn values and the advanced state; a fixed seed is
a fixed initial state, so a fixed call order gives fixed outputs. -/
structure RandomSource (σ : Type) where
  integers : ℤ → ℤ → ℕ → σ → List ℤ × σ
  uniform : ℚ → ℚ → ℕ → σ → List ℚ × σ
  normal : ℚ → ℚ → ℕ → σ → List ℚ × σ
  choice : List String → ℕ → σ → List String × σ
  binomial : List ℚ → σ → List ℕ × σ

/-- Option list of train_model.py line 70 / create_inference_data.py line 63. -/
def contractOptions : List String :=
  ["month-to-month", "one-year", "two-year"]

/-- Option list of train_model.py line 75 / create_inference_data.py line 68. -/
def internetOptions : List String :=
  ["dsl", "fiber_optic", "no"]

/-- Option list of train_model.py lines 80-85 / create_inference_data.py
lines 73-78. -/
def paymentOptions : List String :=
  ["electronic_check", "mailed_check", "bank_transfer", "credit_card"]

/-- `total_charges = max(tenure * monthly + noise, 0)` per row
(train_model.py lines 64-68). -/
def totalCharges (tenure : List ℤ) (monthly noise : List ℚ) : List ℚ :=
  List.zipWith (fun x e => max (x + e) 0)
    (List.zipWith (fun t m => (t : ℚ) * m) tenure monthly) noise

/-- The per-record churn probability vector (the `np.where` cascade applied
elementwise over the drawn columns). -/
def churnProbs : List String → List String → List String →
    List ℤ → List ℤ → List ℚ
  | c :: cs, pm :: pms, sv :: svs, tk :: tks, tn :: tns =>
      churnProbability c pm sv tk tn :: churnProbs cs pms svs tks tns
  | _, _, _, _, _ => []

/-- The labeled dataset produced by `generate_synthetic_data`
(train_model.py lines 118-130), as named columns. -/
structure SynthColumns where
  customer_id : List String
  tenure_months : List ℤ
  monthly_charges : List ℚ
  total_charges : List ℚ
  contract_type : List String
  internet_service : List String
  payment_method : List String
  num_support_tickets : List ℤ
  churned : List ℕ

/-- The unlabeled dataset produced by `generate_inference_data`
(create_inference_data.py lines 87-98): the same columns without `churned`. -/
structure InferenceColumns where
  customer_id : List String
  tenure_months : List ℤ
  monthly_charges : List ℚ
  total_charges : List ℚ
  contract_type : List String
  internet_service : List String
  payment_method : List String
  num_support_tickets : List ℤ

/-- `generate_synthetic_data(n_samples, seed)` (train_model.py lines
49-131) over an arbitrary random source: draws in the exact order of the
code — integers(1,73), uniform(20,120), normal(0,50), choice(contract),
choice(internet), choice(payment), integers(0,11), binomial(churn_prob) —
threading the source state, ids `CUST-{i:05d}` for i in 1..n. -/
def generate_synthetic_data {σ : Type} (rs : RandomSource σ) (n : ℕ)
    (s0 : σ) : SynthColumns × σ :=
  let ids := (List.range' 1 n).map customerId
  let r1 := rs.integers 1 73 n s0
  let r2 := rs.uniform 20 120 n r1.2
  let r3 := rs.normal 0 50 n r2.2
  let total := totalCharges r1.1 r2.1 r3.1
  let r4 := rs.choice contractOptions n r3.2
  let r5 := rs.choice internetOptions n r4.2
  let r6 := rs.choice paymentOptions n r5.2
  let r7 := rs.integers 0 11 n r6.2
  let probs := churnProbs r4.1 r6.1 r5.1 r7.1 r1.1
  let r8 := rs.binomial probs r7.2
  (⟨ids, r1.1, r2.1, total, r4.1, r5.1, r6.1, r7.1, r8.1⟩, r8.2)

/-- `generate_inference_data(n_samples, seed)` (create_inference_data.py
lines 41-99): the same draw calls in the same order, without the
churn-probability computation and binomial draw, ids starting at 10001. -/
def generate_inference_data {σ : Type} (rs : RandomSource σ) (n : ℕ)
    (s0 : σ) : InferenceColumns × σ :=
  let ids := (List.range' 10001 n).map customerId
  let r1 := rs.integers 1 73 n s0
  let r2 := rs.uniform 20 120 n r1.2
  let r3 := rs.normal 0 50 n r2.2
  let total := totalCharges r1.1 r2.1 r3.1
  let r4 := rs.choice contractOptions n r3.2
  let r5 := rs.choice internetOptions n r4.2
  let r6 := rs.choice paymentOptions n r5.2
  let r7 := rs.integers 0 11 n r6.2
  (⟨ids, r1.1, r2.1, total, r4.1, r5.1, r6.1, r7.1⟩, r7.2)

/-! ### Evaluation metrics (train_model.py lines 154-195)
The sklearn calls with `zero_division=0` are embedded by their standard
definitions: a metric whose denominator is zero is reported as 0. -/

/-- Number of positions where label and prediction are both 1. -/
def truePositives (y yp : List ℕ) : ℕ :=
  ((y.zip yp).filter (fun q => decide (q.1 = 1 ∧ q.2 = 1))).length

/-- Number of predicted positives. -/
def predictedPositives (yp : List ℕ) : ℕ :=
  (yp.filter (fun v => decide (v = 1))).length

/-- Number of actual positives. -/
def actualPositives (y : List ℕ) : ℕ :=
  (y.filter (fun v => decide (v = 1))).length

/-- False positives. -/
def falsePositives (y yp : List ℕ) : ℕ :=
  predictedPositives yp - truePositives y yp

/-- False negatives. -/
def falseNegatives (y yp : List ℕ) : ℕ :=
  actualPositives y - truePositives y yp

/-- Number of positions where label and prediction agree. -/
def correctCount (y yp : List ℕ) : ℕ :=
  ((y.zip yp).filter (fun q => decide (q.1 = q.2))).length

/-- `accuracy_score(y_test, y_pred)`. -/
def accuracyScore (y yp : List ℕ) : ℚ :=
  (correctCount y yp : ℚ) / (y.length : ℚ)

/-- `precision_score(y_test, y_pred, zero_division=0)`. -/
def precisionScore (y yp : List ℕ) : ℚ :=
  if predictedPositives yp = 0 then 0
  else (truePositives y yp : ℚ) / (predictedPositives yp : ℚ)

/-- `recall_score(y_test, y_pred, zero_division=0)`. -/
def recallScore (y yp : List ℕ) : ℚ :=
  if actualPositives y = 0 then 0
  else (truePositives y yp : ℚ) / (actualPositives y : ℚ)

/-- `f1_score(y_test, y_pred, zero_division=0)`:
`2 TP / (2 TP + FP + FN)`, 0 when the denominator is 0. -/
def f1Score (y yp : List ℕ) : ℚ :=
  if 2 * truePositives y yp + falsePositives y yp + falseNegatives y yp = 0
  then 0
  else (2 * truePositives y yp : ℚ) /
    ((2 * truePositives y yp + falsePositives y yp + falseNegatives y yp : ℕ) : ℚ)

/-- `round(x, 4)`. -/
def round4 (q : ℚ) : ℚ :=
  ((round (q * 10000) : ℤ) : ℚ) / 10000

/-- The metrics dict returned by `train_and_evaluate`
(train_model.py lines 175-194); the four fields carry the dict entries
"accuracy", "precision", "recall", "f1_score" in order. -/
structure Metrics where
  accuracy : ℚ
  precision : ℚ
  recallM : ℚ
  f1_score : ℚ
deriving DecidableEq

/-- The metric computation of `train_and_evaluate` on the held-out
partition: each metric rounded to 4 decimals, zero-division resolved to 0. -/
def evaluateMetrics (y yp : List ℕ) : Metrics :=
  ⟨round4 (accuracyScore y yp), round4 (precisionScore y yp),
   round4 (recallScore y yp), round4 (f1Score y yp)⟩

/-! ### The metadata record (train_model.py lines 251-259) -/

/-- A JSON-like metadata value. -/
inductive MetaVal where
  | str : String → MetaVal
  | nat : ℕ → MetaVal
  | int : ℤ → MetaVal
  | strList : List String → MetaVal
  | metricsVal : Metrics → MetaVal
deriving DecidableEq

/-- The `metadata` dict built in `main` (train_model.py lines 251-259),
in insertion order. -/
def buildMetadata (nSamples : ℕ) (featureList : List String) (m : Metrics)
    (seed : ℤ) (trainingDate : String) : List (String × MetaVal) :=
  [("model_name", MetaVal.str "churn_prediction_rf"),
   ("model_type", MetaVal.str "RandomForestClassifier"),
   ("training_date", MetaVal.str trainingDate),
   ("num_samples", MetaVal.nat nSamples),
   ("features", MetaVal.strList featureList),
   ("metrics", MetaVal.metricsVal m),
   ("random_seed", MetaVal.int seed)]

/-! ### The scoring entry point (src/score.py lines 18-62) -/

/-- One unlabeled inference record: the row shape of
`data/inference_input.csv` (create_inference_data.py lines 87-98). -/
structure InferenceRecord where
  customer_id : String
  tenure_months : ℤ
  monthly_charges : ℚ
  total_charges : ℚ
  contract_type : ContractType
  internet_service : InternetService
  payment_method : PaymentMethod
  num_support_tickets : ℤ
deriving DecidableEq

/-- Contract categories observed in an inference batch, sorted. -/
def obsContractI (d : List InferenceRecord) : List ContractType :=
  contractCategories.filter (fun v => d.any (fun r => r.contract_type = v))

/-- Internet categories observed in an inference batch, sorted. -/
def obsInternetI (d : List InferenceRecord) : List InternetService :=
  internetCategories.filter (fun v => d.any (fun r => r.internet_service = v))

/-- Payment categories observed in an inference batch, sorted. -/
def obsPaymentI (d : List InferenceRecord) : List PaymentMethod :=
  paymentCategories.filter (fun v => d.any (fun r => r.payment_method = v))

/-- The raw input frame `input_df` as read from the inference CSV:
`customer_id` first, then the numeric and categorical columns in file
order. -/
def rawInputFrame (d : List InferenceRecord) : Frame :=
  ⟨d.length,
    [("customer_id", d.map (fun r => Val.str r.customer_id)),
     ("tenure_months", d.map (fun r => Val.num r.tenure_months)),
     ("monthly_charges", d.map (fun r => Val.num r.monthly_charges)),
     ("total_charges", d.map (fun r => Val.num r.total_charges)),
     ("contract_type", d.map (fun r => Val.str r.contract_type.name)),
     ("internet_service", d.map (fun r => Val.str r.internet_service.name)),
     ("payment_method", d.map (fun r => Val.str r.payment_method.name)),
     ("num_support_tickets", d.map (fun r => Val.num r.num_support_tickets))]⟩

/-- `pd.get_dummies(input_df, columns=CATEGORICAL_COLUMNS)` in `score`
(score.py lines 37-40): the non-categorical columns — `customer_id`
included — keep their relative order, and the indicator groups are
appended. -/
def scoreEncode (d : List InferenceRecord) : Frame :=
  ⟨d.length,
    [("customer_id", d.map (fun r => Val.str r.customer_id)),
     ("tenure_months", d.map (fun r => Val.num r.tenure_months)),
     ("monthly_charges", d.map (fun r => Val.num r.monthly_charges)),
     ("total_charges", d.map (fun r => Val.num r.total_charges)),
     ("num_support_tickets", d.map (fun r => Val.num r.num_support_tickets))]
    ++ (obsContractI d).map (fun v =>
        ("contract_type_" ++ v.name,
         d.map (fun r => Val.num (if r.contract_type = v then 1 else 0))))
    ++ (obsInternetI d).map (fun v =>
        ("internet_service_" ++ v.name,
         d.map (fun r => Val.num (if r.internet_service = v then 1 else 0))))
    ++ (obsPaymentI d).map (fun v =>
        ("payment_method_" ++ v.name,
         d.map (fun r => Val.num (if r.payment_method = v then 1 else 0))))⟩

/-- A fitted classifier as the Scoring Engine consumes it: the ordered
feature-name list captured at fit time (`feature_names_in_`) and an opaque
per-row probability function. -/
structure Classifier where
  features : List String
  proba : List Val → ℚ

/-- `model.predict_proba(features_df)[:, 1]`: sklearn validates that the
frame's columns are exactly the feature names seen at fit time and raises
otherwise; modelled as `none` on any column mismatch. -/
def predictProbaCol (m : Classifier) (X : Frame) : Option (List ℚ) :=
  if X.names = m.features then
    some ((List.range X.nrows).map
      (fun i => m.proba (X.cols.map (fun p => p.2.getD i (Val.num 0)))))
  else none

/-- The body of `score` (score.py lines 30-58), from the point the input
frame is in hand: copy the original frame, one-hot encode the categorical
columns — with no schema alignment and `customer_id` left in — run
`predict_proba`, and attach `churn_probability` to the copy. `none` models
the exception path (score.py lines 60-62 catch it and return `False`). -/
def scorePipeline (m : Classifier) (d : List InferenceRecord) :
    Option Frame :=
  let original := rawInputFrame d
  match predictProbaCol m (scoreEncode d) with
  | none => none
  | some probs =>
      some ⟨original.nrows,
        original.cols ++ [("churn_probability", probs.map Val.num)]⟩

/-! ### Lemmas about the frame operations -/

theorem lookupCol_append_left (c : String) (l l' : List (String × List Val))
    (h : c ∈ l.map Prod.fst) :
    lookupCol c (l ++ l') = lookupCol c l := by
  induction l with
  | nil => cases h
  | cons p rest ih =>
      by_cases hp : p.1 = c
      · simp [lookupCol, hp]
      · have h' : c ∈ rest.map Prod.fst := by
          rcases List.mem_cons.1 h with h | h
          · exact absurd h.symm hp
          · exact h
        simp [lookupCol, hp, ih h']

theorem lookupCol_append_right (c : String) (l l' : List (String × List Val))
    (h : c ∉ l.map Prod.fst) :
    lookupCol c (l ++ l') = lookupCol c l' := by
  induction l with
  | nil => rfl
  | cons p rest ih =>
      have hp : p.1 ≠ c := by
        intro hc
        exact h (by simp [hc])
      have h' : c ∉ rest.map Prod.fst := fun hc => h (by simp [hc])
      simp [lookupCol, hp, ih h']

theorem extendCols_nrows (S : List String) (X : Frame) :
    (extendCols X S).nrows = X.nrows := by
  induction S generalizing X with
  | nil => rfl
  | cons c rest ih =>
      by_cases h : c ∈ X.names
      · simp [extendCols, h, ih]
      · simp [extendCols, h, ih]

theorem names_subset_extendCols (S : List String) (X : Frame) :
    ∀ c ∈ X.names, c ∈ (extendCols X S).names := by
  induction S generalizing X with
  | nil => intro c hc; simpa [extendCols] using hc
  | cons c0 rest ih =>
      intro c hc
      by_cases h : c0 ∈ X.names
      · simpa [extendCols, h] using ih X c hc
      · have hc' : c ∈ (Frame.mk X.nrows
            (X.cols ++ [(c0, List.replicate X.nrows (Val.num 0))])).names := by
          simp [Frame.names] at hc ⊢
          exact Or.inl hc
        simpa [extendCols, h] using ih _ c hc'

theorem mem_names_extendCols_of_mem (S : List String) (X : Frame) (c : String)
    (hS : c ∈ S) : c ∈ (extendCols X S).names := by
  induction S generalizing X with
  | nil => cases hS
  | cons c0 rest ih =>
      by_cases h0 : c0 ∈ X.names
      · rcases List.mem_cons.1 hS with h | h
        · subst h
          simpa [extendCols, h0] using names_subset_extendCols rest X c h0
        · simpa [extendCols, h0] using ih X h
      · set X' : Frame :=
          ⟨X.nrows, X.cols ++ [(c0, List.replicate X.nrows (Val.num 0))]⟩ with hX'
        rcases List.mem_cons.1 hS with h | h
        · subst h
          have hmem : c ∈ X'.names := by simp [hX', Frame.names]
          simpa [extendCols, h0] using names_subset_extendCols rest X' c hmem
        · simpa [extendCols, h0] using ih X' h

theorem getCol_extendCols_of_mem (S : List String) (X : Frame) (c : String)
    (h : c ∈ X.names) :
    (extendCols X S).getCol c = X.getCol c := by
  induction S generalizing X with
  | nil => rfl
  | cons c0 rest ih =>
      by_cases h0 : c0 ∈ X.names
      · simpa [extendCols, h0] using ih X h
      · set X' : Frame :=
          ⟨X.nrows, X.cols ++ [(c0, List.replicate X.nrows (Val.num 0))]⟩ with hX'
        have hget : X'.getCol c = X.getCol c := by
          simpa [hX', Frame.getCol] using
            lookupCol_append_left c X.cols
              [(c0, List.replicate X.nrows (Val.num 0))] h
        have hmem : c ∈ X'.names := by
          simp [hX', Frame.names] at h ⊢
          exact Or.inl h
        simpa [extendCols, h0, hget] using ih X' hmem

theorem getCol_extendCols_of_not_mem (S : List String) (X : Frame) (c : String)
    (hc : c ∉ X.names) (hS : c ∈ S) :
    (extendCols X S).getCol c = List.replicate X.nrows (Val.num 0) := by
  induction S generalizing X with
  | nil => cases hS
  | cons c0 rest ih =>
      by_cases h0 : c0 ∈ X.names
      · have hne : c ≠ c0 := fun h => hc (h ▸ h0)
        have hS' : c ∈ rest := by
          rcases List.mem_cons.1 hS with h | h
          · exact absurd h hne
          · exact h
        simpa [extendCols, h0] using ih X hc hS'
      · set X' : Frame :=
          ⟨X.nrows, X.cols ++ [(c0, List.replicate X.nrows (Val.num 0))]⟩ with hX'
        by_cases hcc : c = c0
        · subst hcc
          have hget : X'.getCol c = List.replicate X.nrows (Val.num 0) := by
            have hnames : c ∉ X.cols.map Prod.fst := by
              simpa [Frame.names] using hc
            simp [hX', Frame.getCol,
              lookupCol_append_right c X.cols _ hnames, lookupCol]
          have hmem : c ∈ X'.names := by simp [hX', Frame.names]
          simpa [extendCols, h0, hget] using
            getCol_extendCols_of_mem rest X' c hmem
        · have hc' : c ∉ X'.names := by
            simp [hX', Frame.names] at hc ⊢
            exact ⟨hc, hcc⟩
          have hS' : c ∈ rest := by
            rcases List.mem_cons.1 hS with h | h
            · exact absurd h hcc
            · exact h
          have := ih X' hc' hS'
          simpa [extendCols, h0, hX'] using this

theorem extendCols_eq_self (S : List String) (X : Frame)
    (h : ∀ c ∈ S, c ∈ X.names) : extendCols X S = X := by
  induction S with
  | nil => rfl
  | cons c0 rest ih =>
      have h0 : c0 ∈ X.names := h c0 (List.mem_cons_self _ _)
      simpa [extendCols, h0] using ih (fun c hc => h c (List.mem_cons_of_mem _ hc))

theorem select_names (X : Frame) (S : List String) :
    (X.select S).names = S := by
  simp only [Frame.select, Frame.names, List.map_map, Function.comp_def]
  exact List.map_id S

theorem select_nrows (X : Frame) (S : List String) :
    (X.select S).nrows = X.nrows := rfl

theorem getCol_select_of_mem (X : Frame) (S : List String) (c : String)
    (h : c ∈ S) : (X.select S).getCol c = X.getCol c := by
  induction S with
  | nil => cases h
  | cons c0 rest ih =>
      by_cases hcc : c0 = c
      · subst hcc
        simp [Frame.select, Frame.getCol, lookupCol]
      · have h' : c ∈ rest := by
          rcases List.mem_cons.1 h with h | h
          · exact absurd h.symm hcc
          · exact h
        simpa [Frame.select, Frame.getCol, lookupCol, hcc] using ih h'

theorem select_names_self (X : Frame) (h : X.names.Nodup) :
    X.select X.names = X := by
  obtain ⟨n, cols⟩ := X
  simp only [Frame.select, Frame.names] at h ⊢
  congr 1
  induction cols with
  | nil => rfl
  | cons p rest ih =>
      obtain ⟨c0, v0⟩ := p
      simp only [List.map_cons, List.nodup_cons] at h
      simp only [List.map_cons, List.cons.injEq]
      constructor
      · simp [Frame.getCol, lookupCol]
      · have step : ∀ c ∈ rest.map Prod.fst,
            (Frame.mk n ((c0, v0) :: rest)).getCol c
              = (Frame.mk n rest).getCol c := by
          intro c hc
          have hne : c0 ≠ c := fun hcc => h.1 (hcc ▸ hc)
          simp [Frame.getCol, lookupCol, hne]
        calc (rest.map Prod.fst).map
              (fun c => (c, (Frame.mk n ((c0, v0) :: rest)).getCol c))
            = (rest.map Prod.fst).map
              (fun c => (c, (Frame.mk n rest).getCol c)) := by
              exact List.map_congr_left (fun c hc => by rw [step c hc])
          _ = rest := ih h.2

/-! ### Alignment: totality, width, idempotence, round trip -/

theorem align_names (X : Frame) (S : List String) :
    (align_features X S).names = S :=
  select_names _ _

theorem align_getCol_of_mem (X : Frame) (S : List String) (c : String)
    (h : c ∈ S) :
    (align_features X S).getCol c = (extendCols X S).getCol c :=
  getCol_select_of_mem _ _ _ h

/-- C3: the align operation is total and width-correct — for every encoded
record set X and every schema S of unique column names, `align_features`
always returns a frame whose columns are exactly S in S's order (hence
exactly `len(S)` columns); every schema column absent from X comes back as
a constant-0 column, and every column of X absent from S is dropped. -/
theorem alignment_total_and_width_correct (X : Frame) (S : List String)
    (_hS : S.Nodup) :
    (align_features X S).names = S ∧
    (align_features X S).cols.length = S.length ∧
    (∀ c, c ∈ S → c ∉ X.names →
      (align_features X S).getCol c = List.replicate X.nrows (Val.num 0)) ∧
    (∀ c, c ∈ X.names → c ∉ S → c ∉ (align_features X S).names) := by
  refine ⟨align_names X S, ?_, ?_, ?_⟩
  · have h := congrArg List.length (align_names X S)
    simpa [Frame.names] using h
  · intro c hcS hcX
    rw [align_getCol_of_mem X S c hcS]
    exact getCol_extendCols_of_not_mem S X c hcX hcS
  · intro c _ hcS
    rw [align_names X S]
    exact hcS

/-- Closed instance of C3: aligning a frame having an extra column "junk"
and missing the schema column "b" returns exactly the schema columns, with
"b" all zero and "junk" gone. -/
theorem alignment_total_and_width_correct_witness :
    (align_features
        ⟨2, [("a", [Val.num 1, Val.num 2]), ("junk", [Val.num 3, Val.num 4])]⟩
        ["a", "b"]).names = ["a", "b"] ∧
    (align_features
        ⟨2, [("a", [Val.num 1, Val.num 2]), ("junk", [Val.num 3, Val.num 4])]⟩
        ["a", "b"]).getCol "b" = List.replicate 2 (Val.num 0) ∧
    "junk" ∉ (align_features
        ⟨2, [("a", [Val.num 1, Val.num 2]), ("junk", [Val.num 3, Val.num 4])]⟩
        ["a", "b"]).names := by
  have h := alignment_total_and_width_correct
    ⟨2, [("a", [Val.num 1, Val.num 2]), ("junk", [Val.num 3, Val.num 4])]⟩
    ["a", "b"] (by decide)
  exact ⟨h.1, h.2.2.1 "b" (by decide) (by decide),
    h.2.2.2 "junk" (by decide) (by decide)⟩

/-- C4: the align operation is idempotent — aligning an already-aligned
frame to the same schema changes nothing. -/
theorem alignment_idempotent (X : Frame) (S : List String) :
    align_features (align_features X S) S = align_features X S := by
  have hsub : ∀ c ∈ S, c ∈ (align_features X S).names := by
    rw [align_names]
    exact fun c h => h
  have hext : extendCols (align_features X S) S = align_features X S :=
    extendCols_eq_self S _ hsub
  show (extendCols (align_features X S) S).select S = align_features X S
  rw [hext]
  show Frame.mk (align_features X S).nrows
    (S.map (fun c => (c, (align_features X S).getCol c)))
    = (extendCols X S).select S
  unfold Frame.select
  congr 1
  exact List.map_congr_left
    (fun c hc => by rw [align_getCol_of_mem X S c hc])

/-- The column names of the encoded feature frame. -/
theorem prepare_features_names (d : List Record) :
    (prepare_features d).1.names =
      numericFeatureNames
      ++ (observedContract d).map (fun v => "contract_type_" ++ v.name)
      ++ (observedInternet d).map (fun v => "internet_service_" ++ v.name)
      ++ (observedPayment d).map (fun v => "payment_method_" ++ v.name) := by
  simp [prepare_features, Frame.names, numericFeatureNames, List.map_map,
    Function.comp_def]

/-- The encoded columns are always a sublist of the full column set. -/
theorem prepare_features_names_sublist (d : List Record) :
    (prepare_features d).1.names.Sublist fullFeatureNames := by
  rw [prepare_features_names]
  unfold fullFeatureNames
  refine List.Sublist.append (List.Sublist.append (List.Sublist.append
    (List.Sublist.refl _) ?_) ?_) ?_
  · exact List.Sublist.map _ (List.filter_sublist _)
  · exact List.Sublist.map _ (List.filter_sublist _)
  · exact List.Sublist.map _ (List.filter_sublist _)

/-- The encoded feature frame never has duplicate column names. -/
theorem prepare_features_names_nodup (d : List Record) :
    (prepare_features d).1.names.Nodup :=
  List.Nodup.sublist (prepare_features_names_sublist d)
    (by decide : fullFeatureNames.Nodup)

/-- C5: schema round trip — encoding a dataset, capturing the encoded
frame's own column list as the schema, and aligning that same encoded frame
to it gives back the identical frame. -/
theorem schema_round_trip (d : List Record) :
    align_features (prepare_features d).1 (prepare_features d).1.names
      = (prepare_features d).1 := by
  unfold align_features
  rw [extendCols_eq_self _ _ (fun c hc => hc)]
  exact select_names_self _ (prepare_features_names_nodup d)

/-! ### Customer-id arithmetic and pool disjointness -/

theorem decValBE_replicate_zero (k : ℕ) (l : List ℕ) :
    decValBE (List.replicate k 0 ++ l) = decValBE l := by
  induction k with
  | zero => rfl
  | succ k ih => simpa [decValBE, List.replicate_succ] using ih

theorem foldr_eq_ofDigits (L : List ℕ) :
    L.foldr (fun d a => 10 * a + d) 0 = Nat.ofDigits 10 L := by
  induction L with
  | nil => simp [Nat.ofDigits]
  | cons d L ih =>
      simp only [List.foldr_cons, ih, Nat.ofDigits_cons]
      ring

theorem decValBE_digitsBE (i : ℕ) : decValBE (digitsBE i) = i := by
  unfold decValBE digitsBE
  rw [List.foldl_reverse, foldr_eq_ofDigits]
  exact Nat.ofDigits_digits 10 i

theorem decValBE_padTo5 (i : ℕ) : decValBE (padTo5 (digitsBE i)) = i := by
  unfold padTo5
  rw [decValBE_replicate_zero, decValBE_digitsBE]

theorem digitsBE_lt (i : ℕ) : ∀ x ∈ digitsBE i, x < 10 := by
  intro x hx
  exact Nat.digits_lt_base (by norm_num) (List.mem_reverse.1 hx)

theorem padTo5_lt (i : ℕ) : ∀ x ∈ padTo5 (digitsBE i), x < 10 := by
  intro x hx
  unfold padTo5 at hx
  rcases List.mem_append.1 hx with h | h
  · have := List.eq_of_mem_replicate h
    omega
  · exact digitsBE_lt i x h

theorem charToDigit_digitChar (a : ℕ) (h : a < 10) :
    charToDigit (Nat.digitChar a) = a := by
  interval_cases a <;> rfl

theorem map_digitChar_inj (l₁ l₂ : List ℕ) (h₁ : ∀ x ∈ l₁, x < 10)
    (h₂ : ∀ x ∈ l₂, x < 10)
    (h : l₁.map Nat.digitChar = l₂.map Nat.digitChar) : l₁ = l₂ := by
  have h' := congrArg (List.map charToDigit) h
  rw [List.map_map, List.map_map] at h'
  have e₁ : l₁.map (charToDigit ∘ Nat.digitChar) = l₁ := by
    have h0 := List.map_congr_left
      (fun a ha => charToDigit_digitChar a (h₁ a ha))
    simpa [Function.comp_def] using h0
  have e₂ : l₂.map (charToDigit ∘ Nat.digitChar) = l₂ := by
    have h0 := List.map_congr_left
      (fun a ha => charToDigit_digitChar a (h₂ a ha))
    simpa [Function.comp_def] using h0
  rw [e₁, e₂] at h'
  exact h'

theorem customerId_inj {i j : ℕ} (h : customerId i = customerId j) :
    i = j := by
  unfold customerId at h
  have hd := congrArg String.data h
  simp only [List.cons.injEq, true_and] at hd
  have hpad : padTo5 (digitsBE i) = padTo5 (digitsBE j) :=
    map_digitChar_inj _ _ (padTo5_lt i) (padTo5_lt j) hd
  have hval := congrArg decValBE hpad
  rwa [decValBE_padTo5, decValBE_padTo5] at hval

/-- C6 counterexample: id disjointness fails for large training pools —
with 10001 training samples the training pool already contains
`CUST-10001`, the first inference-pool id. -/
theorem id_disjointness_counterexample :
    ∃ s, s ∈ trainingIds 10001 ∧ s ∈ inferenceIds 1 := by
  refine ⟨customerId 10001, ?_, ?_⟩
  · exact List.mem_map_of_mem customerId
      (by rw [List.mem_range'_1]; omega)
  · exact List.mem_map_of_mem customerId
      (by rw [List.mem_range'_1]; omega)

/-- C6 (amended): whenever the training pool has at most 10000 samples —
in particular at the defaults of 10000 and 500 — no customer id is in both
the training pool (ids from 1) and the inference pool (ids from 10001). -/
theorem id_disjointness (nTrain nInf : ℕ) (h : nTrain ≤ 10000) :
    ∀ s, s ∈ trainingIds nTrain → s ∉ inferenceIds nInf := by
  intro s hs hs'
  obtain ⟨i, hi, rfl⟩ := List.mem_map.1 hs
  obtain ⟨j, hj, hji⟩ := List.mem_map.1 hs'
  rw [List.mem_range'_1] at hi hj
  have hij := customerId_inj hji
  omega

/-- Closed instance of C6: the first training id is not among the first
five inference ids. -/
theorem id_disjointness_witness : customerId 1 ∉ inferenceIds 5 :=
  id_disjointness 3 5 (by norm_num) (customerId 1)
    (List.mem_map_of_mem customerId (by rw [List.mem_range'_1]; omega))

/-! ### The churn-probability rule cascade -/

/-- C2: the churn probability of every generated labeled record applies the
four overrides in order — month-to-month sets 0.40, electronic check takes
the max with 0.35, fiber optic with more than 5 tickets adds 0.20 capped at
1, tenure over 36 halves — and the spec's pinned record gets exactly 0.30. -/
theorem churn_rule_order :
    (∀ c pm sv tk tn, churnProbability c pm sv tk tn =
      tenureRule tn (fiberRule sv tk (paymentRule pm (contractRule c baseRate)))) ∧
    churnProbability "month-to-month" "electronic_check" "fiber_optic" 8 40
      = 3 / 10 := by
  constructor
  · intro c pm sv tk tn
    simp only [churnProbability, tenureRule, fiberRule, paymentRule,
      contractRule, baseRate]
    split_ifs <;> ring
  · simp only [churnProbability]
    norm_num

/-! ### Generator refinement -/

/-- C10: for every random source, state and sample count, the unlabeled
inference generator issues the same draw calls in the same order as the
labeled training generator, so every column except `customer_id` is
value-for-value identical (`churned` does not exist on the inference side),
and the id sequences start at 10001 and 1 respectively. -/
theorem generator_refinement {σ : Type} (rs : RandomSource σ) (s0 : σ)
    (n : ℕ) :
    (generate_inference_data rs n s0).1.tenure_months
        = (generate_synthetic_data rs n s0).1.tenure_months ∧
    (generate_inference_data rs n s0).1.monthly_charges
        = (generate_synthetic_data rs n s0).1.monthly_charges ∧
    (generate_inference_data rs n s0).1.total_charges
        = (generate_synthetic_data rs n s0).1.total_charges ∧
    (generate_inference_data rs n s0).1.contract_type
        = (generate_synthetic_data rs n s0).1.contract_type ∧
    (generate_inference_data rs n s0).1.internet_service
        = (generate_synthetic_data rs n s0).1.internet_service ∧
    (generate_inference_data rs n s0).1.payment_method
        = (generate_synthetic_data rs n s0).1.payment_method ∧
    (generate_inference_data rs n s0).1.num_support_tickets
        = (generate_synthetic_data rs n s0).1.num_support_tickets ∧
    (generate_synthetic_data rs n s0).1.customer_id
        = (List.range' 1 n).map customerId ∧
    (generate_inference_data rs n s0).1.customer_id
        = (List.range' 10001 n).map customerId :=
  ⟨rfl, rfl, rfl, rfl, rfl, rfl, rfl, rfl, rfl⟩

/-! ### Metric degeneracy -/

/-- C7: metric degeneracy is never an error — with zero predicted positives
precision is 0, with zero actual positives recall is 0, with a zero F1
denominator F1 is 0, and every metric `train_and_evaluate` returns is an
integer multiple of 1/10000 (rounded to 4 decimal places). -/
theorem metric_degeneracy (y yp : List ℕ) :
    (predictedPositives yp = 0 → (evaluateMetrics y yp).precision = 0) ∧
    (actualPositives y = 0 → (evaluateMetrics y yp).recallM = 0) ∧
    (2 * truePositives y yp + falsePositives y yp + falseNegatives y yp = 0 →
      (evaluateMetrics y yp).f1_score = 0) ∧
    (∃ a b c d : ℤ, evaluateMetrics y yp =
      ⟨(a : ℚ) / 10000, (b : ℚ) / 10000, (c : ℚ) / 10000, (d : ℚ) / 10000⟩) := by
  refine ⟨?_, ?_, ?_,
    ⟨round (accuracyScore y yp * 10000), round (precisionScore y yp * 10000),
     round (recallScore y yp * 10000), round (f1Score y yp * 10000), rfl⟩⟩
  · intro h
    simp [evaluateMetrics, precisionScore, h, round4]
  · intro h
    simp [evaluateMetrics, recallScore, h, round4]
  · intro h
    simp [evaluateMetrics, f1Score, h, round4]

/-- Closed instance of C7: an all-negative held-out partition with
all-negative predictions yields precision, recall and F1 all 0. -/
theorem metric_degeneracy_witness :
    (evaluateMetrics [0, 0, 0] [0, 0, 0]).precision = 0 ∧
    (evaluateMetrics [0, 0, 0] [0, 0, 0]).recallM = 0 ∧
    (evaluateMetrics [0, 0, 0] [0, 0, 0]).f1_score = 0 :=
  ⟨(metric_degeneracy [0, 0, 0] [0, 0, 0]).1 (by decide),
   (metric_degeneracy [0, 0, 0] [0, 0, 0]).2.1 (by decide),
   (metric_degeneracy [0, 0, 0] [0, 0, 0]).2.2.1 (by decide)⟩

/-! ### The metadata record -/

/-- C8 counterexample: the metadata written at training time is not keyed
as the claim states — it has no `training_timestamp` key and has an extra
`model_name` key. -/
theorem metadata_fields_counterexample :
    "training_timestamp" ∉
      (buildMetadata 10000 fullFeatureNames ⟨1, 1, 1, 1⟩ 42 "t").map
        Prod.fst ∧
    "model_name" ∈
      (buildMetadata 10000 fullFeatureNames ⟨1, 1, 1, 1⟩ 42 "t").map
        Prod.fst := by
  constructor
  · decide
  · decide

/-- C8 (amended): the metadata record contains exactly the keys
model_name, model_type, training_date, num_samples, features, metrics and
random_seed, in that order, and the feature schema is embedded as the
ordered string list under `features`. -/
theorem metadata_fields (nSamples : ℕ) (featureList : List String)
    (m : Metrics) (seed : ℤ) (ts : String) :
    (buildMetadata nSamples featureList m seed ts).map Prod.fst =
      ["model_name", "model_type", "training_date", "num_samples",
       "features", "metrics", "random_seed"] ∧
    (buildMetadata nSamples featureList m seed ts).lookup "features"
      = some (MetaVal.strList featureList) := by
  constructor
  · rfl
  · rfl

/-! ### The scoring entry point skips schema alignment -/

/-- C1 (code bug): `score` in src/score.py never aligns the encoded frame
to the persisted schema and never drops `customer_id`, so the frame handed
to `predict_proba` still has the identifier column and only the categories
of this batch; against any classifier whose fit-time features do not
include `customer_id` — every model trained by train_model.py — the
prediction raises and `score` takes its error path for every input batch,
instead of attaching churn probabilities as the spec describes. -/
theorem scoring_skips_alignment (m : Classifier)
    (d : List InferenceRecord) (h : "customer_id" ∉ m.features) :
    scorePipeline m d = none := by
  have hmem : "customer_id" ∈ (scoreEncode d).names := by
    simp [scoreEncode, Frame.names]
  have hne : (scoreEncode d).names ≠ m.features := by
    intro he
    rw [he] at hmem
    exact h hmem
  unfold scorePipeline predictProbaCol
  simp [hne]

/-- Closed instance of C1: scoring one concrete inference record against a
model trained on the full feature schema errors out. -/
theorem scoring_skips_alignment_witness :
    scorePipeline ⟨fullFeatureNames, fun _ => 0⟩
      [⟨"CUST-10001", 5, 90, 450, ContractType.monthToMonth,
        InternetService.fiberOptic, PaymentMethod.electronicCheck, 7⟩]
      = none :=
  scoring_skips_alignment _ _ (by decide)

/-! ### Alignment mutates its input -/

/-- C9: `align_features` mutates its input — `data[col] = 0` inserts every
missing schema column into the caller's frame, so the post-call state of
the argument (`extendCols`) has gained those columns as constant 0 and is
not the frame that was passed in. -/
theorem align_mutates_input (X : Frame) (S : List String) (c : String)
    (hc : c ∈ S) (hn : c ∉ X.names) :
    c ∈ (extendCols X S).names ∧
    (extendCols X S).getCol c = List.replicate X.nrows (Val.num 0) ∧
    extendCols X S ≠ X := by
  refine ⟨mem_names_extendCols_of_mem S X c hc,
    getCol_extendCols_of_not_mem S X c hn hc, ?_⟩
  intro he
  exact hn (he ▸ mem_names_extendCols_of_mem S X c hc)

/-- Closed instance of C9: extending a one-column frame by a two-column
schema changes the caller's frame. -/
theorem align_mutates_input_witness :
    extendCols ⟨1, [("a", [Val.num 1])]⟩ ["a", "b"]
      ≠ ⟨1, [("a", [Val.num 1])]⟩ :=
  (align_mutates_input ⟨1, [("a", [Val.num 1])]⟩ ["a", "b"] "b"
    (by decide) (by decide)).2.2

end Churn
